import Mathlib

/-!
Verification of the client-side login/dashboard behaviour script (`app.js`)
of the Tandon Associates demo dashboard.

The script is straight-line, single-threaded DOM code.  We embed it
shallowly: the mutable globals (`users`, `currentUser`), the single
`localStorage` key `'currentUser'`, and the DOM pieces the script touches
become one Lean state record, and each handler becomes a state
transformer.  JavaScript values flowing through `JSON.parse` are
dynamically typed, so the current session value is modelled by a JSON
value type `JVal`; a statement that would throw a `TypeError` or a
`SyntaxError` at runtime is modelled by returning `none`.
-/

/-- A user record, as in the object literals of `app.js`
(`id`, `name`, `email`, `password`, `userType`, `role`). -/
structure User where
  id : Nat
  name : String
  email : String
  password : String
  userType : String
  role : String
deriving Repr, DecidableEq

/-- The hardcoded demo users list (`const users = [...]`, app.js lines 2-27). -/
def users : List User :=
  [ { id := 1, name := "Demo User", email := "demo@lawfirm.com",
      password := "Demo@123", userType := "firm", role := "Law Firm" },
    { id := 2, name := "Solo Attorney", email := "solo@attorney.com",
      password := "Solo@123", userType := "solo", role := "Solo Practitioner" },
    { id := 3, name := "Corporate Counsel", email := "counsel@corp.com",
      password := "Corp@123", userType := "corporate", role := "In-House Counsel" } ]

/-- JavaScript/JSON values, as produced by `JSON.parse`.  Numbers are
kept as exact rationals: every JSON numeral denotes a decimal rational,
and no part of the script observes a numeric value, so the engine's
rounding of numerals to binary doubles is not modelled. -/
inductive JVal where
  | jnull : JVal
  | jbool : Bool → JVal
  | jnum : Rat → JVal
  | jstr : String → JVal
  | jarr : List JVal → JVal
  | jobj : List (String × JVal) → JVal
deriving Repr, Inhabited

/-- Structural equality test for `JVal` (needed because the nested
inductive blocks automatic `DecidableEq` derivation). -/
def JVal.beq : JVal → JVal → Bool
  | .jnull, .jnull => true
  | .jbool a, .jbool b => a == b
  | .jnum a, .jnum b => a == b
  | .jstr a, .jstr b => a == b
  | .jarr xs, .jarr ys => beqList xs ys
  | .jobj xs, .jobj ys => beqFields xs ys
  | _, _ => false
where
  beqList : List JVal → List JVal → Bool
    | [], [] => true
    | x :: xs, y :: ys => JVal.beq x y && beqList xs ys
    | _, _ => false
  beqFields : List (String × JVal) → List (String × JVal) → Bool
    | [], [] => true
    | (k, v) :: xs, (l, w) :: ys => k == l && JVal.beq v w && beqFields xs ys
    | _, _ => false

instance : BEq JVal := ⟨JVal.beq⟩

/-- The JSON encoding of a user record: `JSON.stringify` walks the object
literal's own keys in insertion order, which for both the hardcoded users
and `newUser` (app.js lines 68-75) is
`id, name, email, password, userType, role`. -/
def User.toJVal (u : User) : JVal :=
  .jobj [ ("id", .jnum u.id), ("name", .jstr u.name), ("email", .jstr u.email),
          ("password", .jstr u.password), ("userType", .jstr u.userType),
          ("role", .jstr u.role) ]

/-- Left brace character (written via its code point). -/
def lbrace : Char := Char.ofNat 123

/-- Right brace character (written via its code point). -/
def rbrace : Char := Char.ofNat 125

/-- Hex digit character for `n < 16`, lowercase as `JSON.stringify` emits. -/
def hexDigit (n : Nat) : Char :=
  if n < 10 then Char.ofNat (48 + n) else Char.ofNat (87 + n)

/-- `JSON.stringify` escaping of a single string character: `"` and `\`
are backslash-escaped, control characters below U+0020 get their short
escapes or a `\u00xx` form, everything else passes through. -/
def escapeChar (c : Char) : String :=
  if c = '"' then "\\\""
  else if c = '\\' then "\\\\"
  else if c = '\n' then "\\n"
  else if c = '\t' then "\\t"
  else if c = '\r' then "\\r"
  else if c = '\x08' then "\\b"
  else if c = '\x0c' then "\\f"
  else if c.toNat < 32 then
    "\\u00" ++ (hexDigit (c.toNat / 16)).toString ++ (hexDigit (c.toNat % 16)).toString
  else c.toString

/-- `JSON.stringify` rendering of a string, including the quotes. -/
def quoteString (s : String) : String :=
  "\"" ++ String.join (s.toList.map escapeChar) ++ "\""

/-- `JSON.stringify(user)` for a user-shaped object: the exact string the
script writes to `localStorage` (app.js lines 42 and 79). -/
def stringifyUser (u : User) : String :=
  lbrace.toString
    ++ "\"id\":" ++ toString (Int.ofNat u.id)
    ++ ",\"name\":" ++ quoteString u.name
    ++ ",\"email\":" ++ quoteString u.email
    ++ ",\"password\":" ++ quoteString u.password
    ++ ",\"userType\":" ++ quoteString u.userType
    ++ ",\"role\":" ++ quoteString u.role
    ++ rbrace.toString

/-- Skip JSON whitespace. -/
def skipWs : List Char → List Char
  | c :: rest =>
    if c = ' ' ∨ c = '\t' ∨ c = '\n' ∨ c = '\r' then skipWs rest else c :: rest
  | [] => []

/-- Take a maximal run of decimal digits. -/
def takeDigits : List Char → List Char × List Char
  | c :: rest =>
    if c.isDigit then
      let p := takeDigits rest
      (c :: p.1, p.2)
    else ([], c :: rest)
  | [] => ([], [])

/-- Digits to a natural number. -/
def digitsToNat (ds : List Char) : Nat :=
  ds.foldl (fun a c => a * 10 + (c.toNat - 48)) 0

/-- Power of ten, as a natural number. -/
def pow10 : Nat → Nat
  | 0 => 1
  | n + 1 => 10 * pow10 n

/-- Parse the optional fraction and exponent of a JSON numeral after its
integer part `ip`, yielding the numeral's exact rational value.  The
fraction and the exponent each require at least one digit, as in
RFC 8259. -/
def parseNumTail (neg : Bool) (ip : Nat) (cs : List Char) : Option (JVal × List Char) :=
  let baseOpt : Option (Rat × List Char) :=
    match cs with
    | '.' :: r =>
      match takeDigits r with
      | ([], _) => none
      | (ds, r2) => some ((ip : Rat) + mkRat (digitsToNat ds) (pow10 ds.length), r2)
    | _ => some ((ip : Rat), cs)
  match baseOpt with
  | none => none
  | some (b, cs2) =>
    match cs2 with
    | c :: r =>
      if c = 'e' ∨ c = 'E' then
        let sr : Bool × List Char :=
          match r with
          | '+' :: rr => (false, rr)
          | '-' :: rr => (true, rr)
          | _ => (false, r)
        match takeDigits sr.2 with
        | ([], _) => none
        | (ds, r3) =>
          let v := if sr.1 then b * mkRat 1 (pow10 (digitsToNat ds))
                   else b * mkRat (pow10 (digitsToNat ds)) 1
          some (.jnum (if neg then -v else v), r3)
      else some (.jnum (if neg then -b else b), cs2)
    | [] => some (.jnum (if neg then -b else b), [])

/-- Parse a JSON numeral per RFC 8259: `-? int frac? exp?`, where the
integer part is a single `0` or a nonzero digit followed by digits (so a
leading zero ends the integer part, and any digit right after it makes
the surrounding document invalid, as under `JSON.parse`). -/
def parseNum (cs0 : List Char) : Option (JVal × List Char) :=
  let sr : Bool × List Char :=
    match cs0 with
    | '-' :: r => (true, r)
    | _ => (false, cs0)
  match sr.2 with
  | c :: r =>
    if c = '0' then parseNumTail sr.1 0 r
    else if c.isDigit then
      match takeDigits (c :: r) with
      | (ds, r2) => parseNumTail sr.1 (digitsToNat ds) r2
    else none
  | [] => none

/-- Value of a hex digit character, if any. -/
def hexVal (c : Char) : Option Nat :=
  if '0' ≤ c ∧ c ≤ '9' then some (c.toNat - 48)
  else if 'a' ≤ c ∧ c ≤ 'f' then some (c.toNat - 87)
  else if 'A' ≤ c ∧ c ≤ 'F' then some (c.toNat - 55)
  else none

/-- Parse the body of a JSON string (the opening quote already consumed),
returning the decoded content and the input after the closing quote.
Raw control characters below U+0020 are rejected, as `JSON.parse`
rejects them with a `SyntaxError`.  A `\u` escape denoting a lone
surrogate is accepted, as under `JSON.parse`; its decoded character is
approximated, which no claim observes.  Fuelled to keep the recursion
structural. -/
def parseStr : Nat → List Char → Option (String × List Char)
  | 0, _ => none
  | _ + 1, [] => none
  | fuel + 1, c :: rest =>
    if c = '"' then some ("", rest)
    else if c = '\\' then
      match rest with
      | [] => none
      | e :: rest2 =>
        let dec : Option (Char × List Char) :=
          if e = '"' then some ('"', rest2)
          else if e = '\\' then some ('\\', rest2)
          else if e = '/' then some ('/', rest2)
          else if e = 'n' then some ('\n', rest2)
          else if e = 't' then some ('\t', rest2)
          else if e = 'r' then some ('\r', rest2)
          else if e = 'b' then some ('\x08', rest2)
          else if e = 'f' then some ('\x0c', rest2)
          else if e = 'u' then
            match rest2 with
            | h1 :: h2 :: h3 :: h4 :: rest3 =>
              match hexVal h1, hexVal h2, hexVal h3, hexVal h4 with
              | some a, some b, some c2, some d =>
                some (Char.ofNat (((a * 16 + b) * 16 + c2) * 16 + d), rest3)
              | _, _, _, _ => none
            | _ => none
          else none
        match dec with
        | none => none
        | some (ch, r) =>
          match parseStr fuel r with
          | none => none
          | some (s, rr) => some (ch.toString ++ s, rr)
    else if c.toNat < 32 then none
    else
      match parseStr fuel rest with
      | none => none
      | some (s, rr) => some (c.toString ++ s, rr)

mutual

/-- Recursive-descent JSON value parser (fuelled). -/
def parseVal : Nat → List Char → Option (JVal × List Char)
  | 0, _ => none
  | fuel + 1, cs =>
    match skipWs cs with
    | [] => none
    | c :: rest =>
      if c = 'n' then
        match rest with
        | 'u' :: 'l' :: 'l' :: r => some (.jnull, r)
        | _ => none
      else if c = 't' then
        match rest with
        | 'r' :: 'u' :: 'e' :: r => some (.jbool true, r)
        | _ => none
      else if c = 'f' then
        match rest with
        | 'a' :: 'l' :: 's' :: 'e' :: r => some (.jbool false, r)
        | _ => none
      else if c = '"' then
        match parseStr (rest.length + 1) rest with
        | none => none
        | some (s, r) => some (.jstr s, r)
      else if c = '[' then
        match skipWs rest with
        | ']' :: r => some (.jarr [], r)
        | cs2 =>
          match parseArrItems fuel cs2 with
          | none => none
          | some (xs, r) => some (.jarr xs, r)
      else if c = lbrace then
        match skipWs rest with
        | cs2 =>
          match cs2 with
          | c2 :: r =>
            if c2 = rbrace then some (.jobj [], r)
            else
              match parseObjItems fuel cs2 with
              | none => none
              | some (fs, r2) => some (.jobj fs, r2)
          | [] => none
      else if c = '-' ∨ c.isDigit then parseNum (c :: rest)
      else none

/-- Parse the comma-separated items of a non-empty JSON array, consuming
the closing bracket. -/
def parseArrItems : Nat → List Char → Option (List JVal × List Char)
  | 0, _ => none
  | fuel + 1, cs =>
    match parseVal fuel cs with
    | none => none
    | some (v, r) =>
      match skipWs r with
      | ',' :: r2 =>
        match parseArrItems fuel r2 with
        | none => none
        | some (xs, r3) => some (v :: xs, r3)
      | ']' :: r2 => some ([v], r2)
      | _ => none

/-- Parse the members of a non-empty JSON object, consuming the closing
brace. -/
def parseObjItems : Nat → List Char → Option (List (String × JVal) × List Char)
  | 0, _ => none
  | fuel + 1, cs =>
    match skipWs cs with
    | '"' :: r =>
      match parseStr (r.length + 1) r with
      | none => none
      | some (k, r2) =>
        match skipWs r2 with
        | ':' :: r3 =>
          match parseVal fuel r3 with
          | none => none
          | some (v, r4) =>
            match skipWs r4 with
            | ',' :: r5 =>
              match parseObjItems fuel r5 with
              | none => none
              | some (fs, r6) => some ((k, v) :: fs, r6)
            | c :: r5 => if c = rbrace then some ([(k, v)], r5) else none
            | [] => none
        | _ => none
    | _ => none

end

/-- `JSON.parse`: parse a whole string as one JSON value; `none` models
the thrown `SyntaxError`. -/
def jParse (s : String) : Option JVal :=
  let cs := s.toList
  match parseVal (cs.length + 1) cs with
  | some (v, rest) => if (skipWs rest).isEmpty then some v else none
  | none => none

/-- JavaScript property access `v.k` on a parsed value: accessing a
property of `null` throws (`none`); objects yield the value of the last
binding of the key or `undefined` (`some none`); primitives and arrays
have no such own property, yielding `undefined`. -/
def getProp : JVal → String → Option (Option JVal)
  | .jnull, _ => none
  | .jobj fs, k => some (fs.foldl (fun acc p => if p.1 = k then some p.2 else acc) none)
  | _, _ => some none

mutual

/-- JavaScript string coercion of a value, as used by `textContent`
assignment.  Approximate in the array corner cases; no claim depends on
the displayed text. -/
def jvalText : JVal → String
  | .jnull => "null"
  | .jbool true => "true"
  | .jbool false => "false"
  | .jnum n => toString n
  | .jstr s => s
  | .jarr xs => arrJoin xs
  | .jobj _ => "[object Object]"

/-- Comma-join of coerced array elements. -/
def arrJoin : List JVal → String
  | [] => ""
  | [x] => jvalText x
  | x :: xs => jvalText x ++ "," ++ arrJoin xs

end

/-- Coercion of a possibly-`undefined` value for `textContent`. -/
def jToText : Option JVal → String
  | none => "undefined"
  | some v => jvalText v

/-- `name.charAt(0).toUpperCase()` (app.js line 110): defined only when
the receiver is a string — calling `charAt` on anything else throws. -/
def charAtUpper : Option JVal → Option String
  | some (.jstr s) =>
    some (match s.toList with
          | [] => ""
          | c :: _ => (Char.toUpper c).toString)
  | _ => none

/-- Modelled from the spec: the HTML page shell (`tandon_dashboard_login.html`)
is not among the source files; only `app.js` is.  Per the spec the page is a
single static document with a login/register auth screen, a dashboard
container, and sidebar-driven content sections.  An `Element` models one
element the script reaches through `querySelectorAll` or
`getElementById`: its `id`, its class list, and its `href` attribute. -/
structure Element where
  id : String
  classes : List String
  href : Option String
deriving Repr, DecidableEq

/-- Modelled from the spec: the DOM state the script reads and writes.
The inputs, error divs and fixed containers the spec's page shell always
provides are individual fields; the content sections and sidebar links
(whose exact multiplicity the HTML would fix) are an open-ended element
list. -/
structure Dom where
  elements : List Element
  loginEmailValue : String
  loginPasswordValue : String
  loginErrorHtml : String
  registerNameValue : String
  registerEmailValue : String
  registerPasswordValue : String
  registerUserTypeValue : String
  registerErrorHtml : String
  dashboardClasses : List String
  authScreenDisplay : String
  loginFormDisplay : String
  registerFormDisplay : String
  displayUserNameText : String
  displayUserRoleText : String
  userInitialText : String
deriving Repr, DecidableEq

/-- `classList.add`: appends the token unless already present. -/
def addClass (cs : List String) (c : String) : List String :=
  if c ∈ cs then cs else cs ++ [c]

/-- `classList.remove`: removes the token. -/
def removeClass (cs : List String) (c : String) : List String :=
  cs.filter (· ≠ c)

/-- Index of the first element satisfying the predicate, as
`getElementById` / `querySelector` return the first match in document
order. -/
def firstIdx (p : Element → Bool) : List Element → Option Nat
  | [] => none
  | e :: rest => if p e then some 0 else (firstIdx p rest).map (· + 1)

/-- Apply a function to the element at an index (out-of-range is the
identity; callers only use indices obtained from `firstIdx`). -/
def modifyAt (f : Element → Element) : Nat → List Element → List Element
  | _, [] => []
  | 0, e :: rest => f e :: rest
  | n + 1, e :: rest => e :: modifyAt f n rest

/-- The whole mutable state of the page: the `users` array, the
`currentUser` global (a dynamically-typed value, `jnull` when logged
out), the `localStorage` entry under key `'currentUser'`, and the DOM. -/
structure AppState where
  users : List User
  currentUser : JVal
  storage : Option String
  dom : Dom
deriving Repr

/-- The state right after the script has run its top level (app.js lines
2 and 29): the three demo users and `currentUser = null`, over whatever
storage and DOM the browser supplies. -/
def initState (st : Option String) (d : Dom) : AppState :=
  { users := users, currentUser := .jnull, storage := st, dom := d }

/-- The error markup written on a failed credential match (app.js line 45). -/
def invalidLoginMsg : String :=
  "<div class=\"form-message error\">❌ Invalid email or password</div>"

/-- The error markup for a too-short registration password (app.js line 58). -/
def pwTooShortMsg : String :=
  "<div class=\"form-message error\">❌ Password must be at least 6 characters</div>"

/-- The error markup for an already-registered email (app.js line 64). -/
def emailRegisteredMsg : String :=
  "<div class=\"form-message error\">❌ Email already registered</div>"

/-- The body of the first `forEach` of `showSection` (app.js lines
117-119): strip `active` from a `.content-section` element. -/
def stepCS (e : Element) : Element :=
  if e.classes.contains "content-section" then
    { e with classes := removeClass e.classes "active" } else e

/-- The body of the second `forEach` of `showSection` (app.js lines
122-124): strip `active` from a `.sidebar-link` element. -/
def stepSL (e : Element) : Element :=
  if e.classes.contains "sidebar-link" then
    { e with classes := removeClass e.classes "active" } else e

/-- `classList.add('active')` on one element. -/
def addActive (e : Element) : Element :=
  { e with classes := addClass e.classes "active" }

/-- `showSection(sectionId, linkEl)` (app.js lines 115-133): strip
`active` from every `.content-section` and every `.sidebar-link`, then
add `active` to the element with id `sectionId + '-section'` (throwing,
i.e. `none`, when no such element exists), then add `active` to the
clicked link when one was passed.  `linkEl` is an element reference,
modelled as an index into the element list. -/
def showSection (sectionId : String) (linkEl : Option Nat) (dom : Dom) : Option Dom :=
  let els2 := (dom.elements.map stepCS).map stepSL
  match firstIdx (fun e => e.id == sectionId ++ "-section") els2 with
  | none => none
  | some i =>
    let els3 := modifyAt addActive i els2
    let els4 :=
      match linkEl with
      | some j => modifyAt addActive j els3
      | none => els3
    some { dom with elements := els4 }

/-- `showDashboard()` (app.js lines 103-113): hide the auth screen, mark
the dashboard active, render `currentUser.name`, `currentUser.role` and
the upper-cased first character of the name (each property access or
`charAt` call throwing on a value of the wrong shape), then show the
`dashboard` section. -/
def showDashboard (s : AppState) : Option AppState :=
  let dom1 := { s.dom with authScreenDisplay := "none",
                           dashboardClasses := addClass s.dom.dashboardClasses "active" }
  match getProp s.currentUser "name" with
  | none => none
  | some nameV =>
    let dom2 := { dom1 with displayUserNameText := jToText nameV }
    match getProp s.currentUser "role" with
    | none => none
    | some roleV =>
      let dom3 := { dom2 with displayUserRoleText := jToText roleV }
      match charAtUpper nameV with
      | none => none
      | some ini =>
        let dom4 := { dom3 with userInitialText := ini }
        match showSection "dashboard" none dom4 with
        | none => none
        | some dom5 => some { s with dom := dom5 }

/-- `handleLogin(event)` (app.js lines 32-47): look up the first user
whose email and password both equal the submitted values; on a match set
`currentUser`, mirror it into storage as JSON and show the dashboard;
otherwise write the invalid-credentials markup into the login error div. -/
def handleLogin (s : AppState) : Option AppState :=
  let email := s.dom.loginEmailValue
  let password := s.dom.loginPasswordValue
  match s.users.find? (fun u => u.email == email && u.password == password) with
  | some user =>
    showDashboard { s with currentUser := user.toJVal,
                           storage := some (stringifyUser user) }
  | none =>
    some { s with dom := { s.dom with loginErrorHtml := invalidLoginMsg } }

/-- The record `handleRegister` builds from the submitted fields (app.js
lines 68-75). -/
def regNewUser (s : AppState) : User :=
  { id := s.users.length + 1,
    name := s.dom.registerNameValue,
    email := s.dom.registerEmailValue,
    password := s.dom.registerPasswordValue,
    userType := s.dom.registerUserTypeValue,
    role := if s.dom.registerUserTypeValue == "firm" then "Law Firm"
            else if s.dom.registerUserTypeValue == "solo" then "Solo Practitioner"
            else "In-House Counsel" }

/-- JavaScript string `length`: the number of UTF-16 code units, so a
character beyond the Basic Multilingual Plane counts twice. -/
def jsLength (s : String) : Nat :=
  s.toList.foldl (fun n c => n + (if c.toNat < 65536 then 1 else 2)) 0

/-- `handleRegister(event)` (app.js lines 49-81): reject a password whose
`length` (UTF-16 code units) is below 6, then an email equal to an
existing user's; on acceptance push the new record, make it the current
user, mirror it into storage and show the dashboard. -/
def handleRegister (s : AppState) : Option AppState :=
  let email := s.dom.registerEmailValue
  let password := s.dom.registerPasswordValue
  if jsLength password < 6 then
    some { s with dom := { s.dom with registerErrorHtml := pwTooShortMsg } }
  else
    match s.users.find? (fun u => u.email == email) with
    | some _ =>
      some { s with dom := { s.dom with registerErrorHtml := emailRegisteredMsg } }
    | none =>
      let newUser := regNewUser s
      showDashboard { s with users := s.users ++ [newUser],
                             currentUser := newUser.toJVal,
                             storage := some (stringifyUser newUser) }

/-- `handleLogout()` (app.js lines 83-90): clear the session and the
stored entry, hide the dashboard, show the auth screen, blank the login
fields.  Every element it touches is part of the fixed page shell, so it
never throws. -/
def handleLogout (s : AppState) : AppState :=
  { s with currentUser := .jnull,
           storage := none,
           dom := { s.dom with
                    dashboardClasses := removeClass s.dom.dashboardClasses "active",
                    authScreenDisplay := "flex",
                    loginEmailValue := "",
                    loginPasswordValue := "" } }

/-- `toggleToRegister()` (app.js lines 93-96). -/
def toggleToRegister (s : AppState) : AppState :=
  { s with dom := { s.dom with loginFormDisplay := "none", registerFormDisplay := "block" } }

/-- `toggleToLogin()` (app.js lines 98-101). -/
def toggleToLogin (s : AppState) : AppState :=
  { s with dom := { s.dom with registerFormDisplay := "none", loginFormDisplay := "block" } }

/-- The `load` listener (app.js lines 136-149): when the stored
`'currentUser'` value is truthy (non-null and non-empty), parse it
(`JSON.parse` throwing on malformed input), install it as the session and
show the dashboard; then re-show the dashboard section, highlighting the
default sidebar link when `querySelector('.sidebar-link[href="#"]')`
finds one. -/
def loadHandler (s : AppState) : Option AppState :=
  match s.storage with
  | none => some s
  | some sv =>
    if sv = "" then some s
    else
      match jParse sv with
      | none => none
      | some v =>
        match showDashboard { s with currentUser := v } with
        | none => none
        | some s2 =>
          match firstIdx (fun e => e.classes.contains "sidebar-link" && e.href == some "#")
              s2.dom.elements with
          | some j =>
            match showSection "dashboard" (some j) s2.dom with
            | none => none
            | some d => some { s2 with dom := d }
          | none =>
            match showSection "dashboard" none s2.dom with
            | none => none
            | some d => some { s2 with dom := d }

/-! ### List-level helper lemmas -/

lemma contains_mem (l : List String) (a : String) : l.contains a = true ↔ a ∈ l := by
  simp

lemma modifyAt_length (f : Element → Element) (i : Nat) (l : List Element) :
    (modifyAt f i l).length = l.length := by
  induction l generalizing i with
  | nil => cases i <;> rfl
  | cons e rest ih =>
    cases i with
    | zero => rfl
    | succ n => simpa [modifyAt] using ih n

lemma modifyAt_getElem? (f : Element → Element) (i : Nat) (l : List Element) (k : Nat) :
    (modifyAt f i l)[k]? = if k = i then (l[k]?).map f else l[k]? := by
  induction l generalizing i k with
  | nil => simp [modifyAt]
  | cons e rest ih =>
    cases i with
    | zero =>
      cases k with
      | zero => simp [modifyAt]
      | succ m => simp [modifyAt]
    | succ n =>
      cases k with
      | zero => simp [modifyAt]
      | succ m => simpa [modifyAt] using ih n m

lemma firstIdx_map (p : Element → Bool) (f : Element → Element) (l : List Element) :
    firstIdx p (l.map f) = firstIdx (fun e => p (f e)) l := by
  induction l with
  | nil => rfl
  | cons e rest ih => by_cases h : p (f e) <;> simp [firstIdx, h, ih]

lemma firstIdx_congr (p q : Element → Bool) (l : List Element) (h : ∀ e, p e = q e) :
    firstIdx p l = firstIdx q l := by
  induction l with
  | nil => rfl
  | cons e rest ih => simp [firstIdx, h e, ih]

lemma firstIdx_some (p : Element → Bool) (l : List Element) (i : Nat)
    (h : firstIdx p l = some i) : ∃ e, l[i]? = some e ∧ p e = true := by
  induction l generalizing i with
  | nil => simp [firstIdx] at h
  | cons e rest ih =>
    by_cases hp : p e
    · simp [firstIdx, hp] at h
      subst h
      exact ⟨e, by simp, hp⟩
    · simp [firstIdx, hp] at h
      obtain ⟨j, hj, rfl⟩ := h
      obtain ⟨e', he', hpe'⟩ := ih j hj
      exact ⟨e', by simpa using he', hpe'⟩

lemma firstIdx_lt_length (p : Element → Bool) (l : List Element) (i : Nat)
    (h : firstIdx p l = some i) : i < l.length := by
  induction l generalizing i with
  | nil => simp [firstIdx] at h
  | cons e rest ih =>
    by_cases hp : p e
    · simp [firstIdx, hp] at h
      subst h
      simp
    · simp [firstIdx, hp] at h
      obtain ⟨j, hj, rfl⟩ := h
      simpa using Nat.succ_lt_succ (ih j hj)

lemma firstIdx_ext_id (t : String) (l1 l2 : List Element)
    (h : ∀ k : Nat, (l1[k]?).map Element.id = (l2[k]?).map Element.id) :
    firstIdx (fun e => e.id == t) l1 = firstIdx (fun e => e.id == t) l2 := by
  induction l1 generalizing l2 with
  | nil =>
    cases l2 with
    | nil => rfl
    | cons e2 rest2 => simpa using h 0
  | cons e1 rest1 ih =>
    cases l2 with
    | nil => simpa using h 0
    | cons e2 rest2 =>
      have h0 : e1.id = e2.id := by simpa using h 0
      have htail : ∀ k : Nat, (rest1[k]?).map Element.id = (rest2[k]?).map Element.id := by
        intro k
        simpa using h (k + 1)
      by_cases he : e1.id == t
      · have he2 : e2.id == t := by rwa [h0] at he
        simp [firstIdx, he, he2]
      · have he2 : (e2.id == t) = false := by
          rw [← h0]
          simpa using he
        simp [firstIdx, he, he2, ih rest2 htail]

lemma mem_addClass (cs : List String) (c c' : String) :
    c ∈ addClass cs c' ↔ c ∈ cs ∨ c = c' := by
  unfold addClass
  by_cases h : c' ∈ cs
  · simp only [if_pos h]
    constructor
    · exact Or.inl
    · rintro (hc | rfl)
      · exact hc
      · exact h
  · simp [if_neg h, List.mem_append]

lemma mem_removeClass (cs : List String) (c c' : String) :
    c ∈ removeClass cs c' ↔ c ∈ cs ∧ c ≠ c' := by
  unfold removeClass
  simp [List.mem_filter]

/-! ### Pointwise characterisation of `showSection` -/

/-- The net effect of one `showSection` call on the element at index `k`,
when the target section sits at index `i`. -/
def postElem (i : Nat) (linkEl : Option Nat) (k : Nat) (e : Element) : Element :=
  let e2 := stepSL (stepCS e)
  let e3 := if k = i then addActive e2 else e2
  match linkEl with
  | some j => if k = j then addActive e3 else e3
  | none => e3

lemma stepCS_id (e : Element) : (stepCS e).id = e.id := by
  unfold stepCS
  split <;> rfl

lemma stepSL_id (e : Element) : (stepSL e).id = e.id := by
  unfold stepSL
  split <;> rfl

lemma addActive_id (e : Element) : (addActive e).id = e.id := rfl

lemma postElem_id (i : Nat) (linkEl : Option Nat) (k : Nat) (e : Element) :
    (postElem i linkEl k e).id = e.id := by
  unfold postElem
  cases linkEl <;> dsimp only <;>
    (repeat' split) <;> simp [addActive_id, stepSL_id, stepCS_id]

lemma stepCS_href (e : Element) : (stepCS e).href = e.href := by
  unfold stepCS
  split <;> rfl

lemma stepSL_href (e : Element) : (stepSL e).href = e.href := by
  unfold stepSL
  split <;> rfl

lemma postElem_href (i : Nat) (linkEl : Option Nat) (k : Nat) (e : Element) :
    (postElem i linkEl k e).href = e.href := by
  unfold postElem
  cases linkEl <;> dsimp only <;>
    (repeat' split) <;> simp [addActive, stepSL_href, stepCS_href]

lemma mem_stepCS (e : Element) (c : String) :
    c ∈ (stepCS e).classes ↔
      c ∈ e.classes ∧ ¬(c = "active" ∧ "content-section" ∈ e.classes) := by
  unfold stepCS
  by_cases h : "content-section" ∈ e.classes
  · rw [if_pos (by simpa [contains_mem] using h)]
    simp [mem_removeClass, h]
    try tauto
  · rw [if_neg (by simpa [contains_mem] using h)]
    simp [h]

lemma mem_stepSL (e : Element) (c : String) :
    c ∈ (stepSL e).classes ↔
      c ∈ e.classes ∧ ¬(c = "active" ∧ "sidebar-link" ∈ e.classes) := by
  unfold stepSL
  by_cases h : "sidebar-link" ∈ e.classes
  · rw [if_pos (by simpa [contains_mem] using h)]
    simp [mem_removeClass, h]
    try tauto
  · rw [if_neg (by simpa [contains_mem] using h)]
    simp [h]

lemma stepCS_classes_sets (e : Element) (c : String) :
    c ∈ (stepCS e).classes ↔ (c ∈ e.classes ∧ (c = "active" → "content-section" ∉ e.classes)) := by
  rw [mem_stepCS]
  tauto

lemma mem_stepSL_stepCS (e : Element) (c : String) :
    c ∈ (stepSL (stepCS e)).classes ↔
      c ∈ e.classes ∧
        (c = "active" → ("content-section" ∉ e.classes ∧ "sidebar-link" ∉ e.classes)) := by
  have hCS : "sidebar-link" ∈ (stepCS e).classes ↔ "sidebar-link" ∈ e.classes := by
    rw [mem_stepCS]
    simp
  rw [mem_stepSL, mem_stepCS, hCS]
  tauto

lemma mem_addActive (e : Element) (c : String) :
    c ∈ (addActive e).classes ↔ c ∈ e.classes ∨ c = "active" := by
  unfold addActive
  simpa using mem_addClass e.classes c "active"

lemma postElem_mem_other (i : Nat) (linkEl : Option Nat) (k : Nat) (e : Element)
    (c : String) (hc : c ≠ "active") :
    c ∈ (postElem i linkEl k e).classes ↔ c ∈ e.classes := by
  unfold postElem
  have base := mem_stepSL_stepCS e c
  cases linkEl <;> dsimp only <;> (repeat' split) <;>
    simp [mem_addActive, base, hc]

lemma mem_addActive_ite (p : Prop) [Decidable p] (e : Element) :
    "active" ∈ (if p then addActive e else e).classes ↔ p ∨ "active" ∈ e.classes := by
  by_cases h : p <;> simp [h, mem_addActive]

lemma postElem_mem_active (i : Nat) (linkEl : Option Nat) (k : Nat) (e : Element) :
    "active" ∈ (postElem i linkEl k e).classes ↔
      k = i ∨ linkEl = some k ∨
        ("active" ∈ e.classes ∧ "content-section" ∉ e.classes ∧ "sidebar-link" ∉ e.classes) := by
  unfold postElem
  have base : "active" ∈ (stepSL (stepCS e)).classes ↔
      ("active" ∈ e.classes ∧ "content-section" ∉ e.classes ∧ "sidebar-link" ∉ e.classes) := by
    rw [mem_stepSL_stepCS]
    tauto
  cases linkEl with
  | none =>
    dsimp only
    rw [mem_addActive_ite, base]
    simp
  | some j =>
    dsimp only
    rw [mem_addActive_ite, mem_addActive_ite, base]
    constructor
    · rintro (hj | hi | hC)
      · exact Or.inr (Or.inl (congrArg some hj.symm))
      · exact Or.inl hi
      · exact Or.inr (Or.inr hC)
    · rintro (hi | hj | hC)
      · exact Or.inr (Or.inl hi)
      · refine Or.inl ?_
        injection hj with h
        exact h.symm
      · exact Or.inr (Or.inr hC)

lemma map_map_getElem? (l : List Element) (k : Nat) :
    ((l.map stepCS).map stepSL)[k]? = (l[k]?).map (fun e => stepSL (stepCS e)) := by
  simp [List.getElem?_map, Option.map_map]
  rfl

lemma showSection_spec (sectionId : String) (linkEl : Option Nat) (dom : Dom) (i : Nat)
    (hfind : firstIdx (fun e => e.id == sectionId ++ "-section") dom.elements = some i) :
    ∃ els', showSection sectionId linkEl dom = some { dom with elements := els' } ∧
      els'.length = dom.elements.length ∧
      ∀ k : Nat, els'[k]? = (dom.elements[k]?).map (postElem i linkEl k) := by
  have hf2 : firstIdx (fun e => e.id == sectionId ++ "-section")
      ((dom.elements.map stepCS).map stepSL) = some i := by
    rw [firstIdx_map, firstIdx_map]
    rw [firstIdx_congr _ (fun e => e.id == sectionId ++ "-section") dom.elements
      (fun e => by rw [stepSL_id, stepCS_id])]
    exact hfind
  unfold showSection
  simp only [hf2]
  refine ⟨_, rfl, ?_, ?_⟩
  · cases linkEl <;> simp [modifyAt_length]
  · intro k
    cases linkEl with
    | none =>
      rw [modifyAt_getElem?, map_map_getElem?]
      cases h : dom.elements[k]? with
      | none => simp
      | some e => by_cases hk : k = i <;> simp [hk, postElem]
    | some j =>
      rw [modifyAt_getElem?, modifyAt_getElem?, map_map_getElem?]
      cases h : dom.elements[k]? with
      | none => simp
      | some e =>
        by_cases hk : k = i <;> by_cases hj : k = j <;>
          simp [hk, hj, postElem] <;> split <;> simp

/-- First character of a string, upper-cased (the value `showDashboard`
writes into the avatar). -/
def upperFirst (nm : String) : String :=
  match nm.toList with
  | [] => ""
  | c :: _ => (Char.toUpper c).toString

lemma charAtUpper_jstr (nm : String) :
    charAtUpper (some (.jstr nm)) = some (upperFirst nm) := rfl

lemma jToText_jstr (nm : String) : jToText (some (.jstr nm)) = nm := by
  simp [jToText, jvalText]

lemma showDashboard_spec (s : AppState) (nm : String) (i : Nat)
    (hname : getProp s.currentUser "name" = some (some (.jstr nm)))
    (hfind : firstIdx (fun e => e.id == "dashboard-section") s.dom.elements = some i) :
    ∃ roleV els',
      showDashboard s =
        some { s with dom :=
          { s.dom with
            authScreenDisplay := "none",
            dashboardClasses := addClass s.dom.dashboardClasses "active",
            displayUserNameText := nm,
            displayUserRoleText := jToText roleV,
            userInitialText := upperFirst nm,
            elements := els' } } ∧
      els'.length = s.dom.elements.length ∧
      ∀ k : Nat, els'[k]? = (s.dom.elements[k]?).map (postElem i none k) := by
  cases cu : s.currentUser with
  | jobj fs =>
    have hrole : getProp s.currentUser "role" =
        some (fs.foldl (fun acc p => if p.1 = "role" then some p.2 else acc) none) := by
      rw [cu]
      rfl
    obtain ⟨els', hshow, hlen, hpt⟩ := showSection_spec "dashboard" none
      { s.dom with
        authScreenDisplay := "none",
        dashboardClasses := addClass s.dom.dashboardClasses "active",
        displayUserNameText := jToText (some (.jstr nm)),
        displayUserRoleText :=
          jToText (fs.foldl (fun acc p => if p.1 = "role" then some p.2 else acc) none),
        userInitialText := upperFirst nm } i (by simpa using hfind)
    refine ⟨fs.foldl (fun acc p => if p.1 = "role" then some p.2 else acc) none, els', ?_, ?_, ?_⟩
    · unfold showDashboard
      rw [hname, hrole]
      simp only [charAtUpper_jstr]
      rw [hshow]
      simp [jToText_jstr, cu]
    · simpa using hlen
    · intro k
      simpa using hpt k
  | jnull => simp [getProp, cu] at hname
  | jbool b => simp [getProp, cu] at hname
  | jnum n => simp [getProp, cu] at hname
  | jstr str => simp [getProp, cu] at hname
  | jarr xs => simp [getProp, cu] at hname

/-! ### Preservation lemmas for the handlers -/

lemma showSection_dom_fields (sectionId : String) (linkEl : Option Nat) (dom dom' : Dom)
    (h : showSection sectionId linkEl dom = some dom') :
    dom'.authScreenDisplay = dom.authScreenDisplay ∧
    dom'.dashboardClasses = dom.dashboardClasses ∧
    dom'.loginErrorHtml = dom.loginErrorHtml ∧
    dom'.registerErrorHtml = dom.registerErrorHtml ∧
    dom'.loginEmailValue = dom.loginEmailValue ∧
    dom'.loginPasswordValue = dom.loginPasswordValue := by
  simp only [showSection] at h
  repeat' split at h
  all_goals first
  | exact Option.noConfusion h
  | (injection h with h
     subst h
     exact ⟨rfl, rfl, rfl, rfl, rfl, rfl⟩)

lemma showDashboard_preserves (s s' : AppState) (h : showDashboard s = some s') :
    s'.users = s.users ∧ s'.currentUser = s.currentUser ∧ s'.storage = s.storage := by
  simp only [showDashboard] at h
  repeat' split at h
  all_goals first
  | exact Option.noConfusion h
  | (injection h with h
     subst h
     exact ⟨rfl, rfl, rfl⟩)

lemma handleLogin_users (s s' : AppState) (h : handleLogin s = some s') :
    s'.users = s.users := by
  simp only [handleLogin] at h
  split at h
  · exact (showDashboard_preserves _ _ h).1
  · injection h with h
    subst h
    rfl

lemma handleRegister_users (s s' : AppState) (h : handleRegister s = some s') :
    s'.users = s.users ∨ s'.users = s.users ++ [regNewUser s] := by
  simp only [handleRegister] at h
  split at h
  · injection h with h
    subst h
    exact Or.inl rfl
  · split at h
    · injection h with h
      subst h
      exact Or.inl rfl
    · exact Or.inr ((showDashboard_preserves _ _ h).1)

lemma loadHandler_users (s s' : AppState) (h : loadHandler s = some s') :
    s'.users = s.users := by
  simp only [loadHandler] at h
  split at h
  · injection h with h
    subst h
    rfl
  · rename_i sv hst
    split at h
    · injection h with h
      subst h
      rfl
    · split at h
      · exact Option.noConfusion h
      · rename_i v hp
        split at h
        · exact Option.noConfusion h
        · rename_i s2 hd
          have h2 := (showDashboard_preserves _ _ hd).1
          split at h
          all_goals split at h
          all_goals first
          | exact Option.noConfusion h
          | (injection h with h
             subst h
             exact h2)

/-! ### Success-path helpers -/

lemma getProp_toJVal_name (u : User) :
    getProp u.toJVal "name" = some (some (.jstr u.name)) := rfl

lemma handleLogin_success (s : AppState) (u : User) (i : Nat)
    (hf : s.users.find? (fun u =>
        u.email == s.dom.loginEmailValue && u.password == s.dom.loginPasswordValue) = some u)
    (hdom : firstIdx (fun e => e.id == "dashboard-section") s.dom.elements = some i) :
    ∃ s', handleLogin s = some s' ∧
      s'.currentUser = u.toJVal ∧
      s'.storage = some (stringifyUser u) ∧
      s'.users = s.users ∧
      s'.dom.authScreenDisplay = "none" ∧
      "active" ∈ s'.dom.dashboardClasses ∧
      s'.dom.loginErrorHtml = s.dom.loginErrorHtml ∧
      s'.dom.elements.length = s.dom.elements.length ∧
      (∀ k : Nat, s'.dom.elements[k]? = (s.dom.elements[k]?).map (postElem i none k)) := by
  obtain ⟨roleV, els', heq, hlen, hpt⟩ := showDashboard_spec
    { s with currentUser := u.toJVal, storage := some (stringifyUser u) } u.name i
    (getProp_toJVal_name u) (by simpa using hdom)
  have hlogin : handleLogin s =
      showDashboard { s with currentUser := u.toJVal, storage := some (stringifyUser u) } := by
    simp only [handleLogin, hf]
  rw [heq] at hlogin
  exact ⟨_, hlogin, rfl, rfl, rfl, rfl,
    (mem_addClass _ _ _).mpr (Or.inr rfl), rfl, hlen, hpt⟩

lemma handleRegister_success (s : AppState) (i : Nat)
    (h6 : ¬ jsLength s.dom.registerPasswordValue < 6)
    (hf : s.users.find? (fun u => u.email == s.dom.registerEmailValue) = none)
    (hdom : firstIdx (fun e => e.id == "dashboard-section") s.dom.elements = some i) :
    ∃ s', handleRegister s = some s' ∧
      s'.users = s.users ++ [regNewUser s] ∧
      s'.currentUser = (regNewUser s).toJVal ∧
      s'.storage = some (stringifyUser (regNewUser s)) ∧
      s'.dom.authScreenDisplay = "none" ∧
      "active" ∈ s'.dom.dashboardClasses ∧
      s'.dom.registerErrorHtml = s.dom.registerErrorHtml ∧
      s'.dom.elements.length = s.dom.elements.length ∧
      (∀ k : Nat, s'.dom.elements[k]? = (s.dom.elements[k]?).map (postElem i none k)) := by
  obtain ⟨roleV, els', heq, hlen, hpt⟩ := showDashboard_spec
    { s with users := s.users ++ [regNewUser s],
             currentUser := (regNewUser s).toJVal,
             storage := some (stringifyUser (regNewUser s)) } (regNewUser s).name i
    (getProp_toJVal_name _) (by simpa using hdom)
  have hreg : handleRegister s =
      showDashboard { s with users := s.users ++ [regNewUser s],
                             currentUser := (regNewUser s).toJVal,
                             storage := some (stringifyUser (regNewUser s)) } := by
    simp only [handleRegister, if_neg h6, hf]
  rw [heq] at hreg
  exact ⟨_, hreg, rfl, rfl, rfl, rfl,
    (mem_addClass _ _ _).mpr (Or.inr rfl), rfl, hlen, hpt⟩

lemma find_login_some (s : AppState)
    (hex : ∃ u ∈ s.users,
      u.email = s.dom.loginEmailValue ∧ u.password = s.dom.loginPasswordValue) :
    ∃ u, s.users.find? (fun u =>
        u.email == s.dom.loginEmailValue && u.password == s.dom.loginPasswordValue) = some u ∧
      u ∈ s.users ∧ u.email = s.dom.loginEmailValue ∧ u.password = s.dom.loginPasswordValue := by
  have hsome : (s.users.find? (fun u =>
      u.email == s.dom.loginEmailValue && u.password == s.dom.loginPasswordValue)).isSome := by
    refine List.find?_isSome.mpr ?_
    obtain ⟨u, hu, he, hp⟩ := hex
    exact ⟨u, hu, by simp [he, hp]⟩
  obtain ⟨u, hu⟩ := Option.isSome_iff_exists.mp hsome
  have hpu := List.find?_some hu
  have hmem := List.mem_of_find?_eq_some hu
  simp only [Bool.and_eq_true, beq_iff_eq] at hpu
  exact ⟨u, hu, hmem, hpu.1, hpu.2⟩

lemma find_login_none (s : AppState)
    (hno : ¬ ∃ u ∈ s.users,
      u.email = s.dom.loginEmailValue ∧ u.password = s.dom.loginPasswordValue) :
    s.users.find? (fun u =>
      u.email == s.dom.loginEmailValue && u.password == s.dom.loginPasswordValue) = none := by
  refine List.find?_eq_none.mpr ?_
  intro u hu
  simp only [Bool.and_eq_true, beq_iff_eq, not_and]
  intro he hp
  exact hno ⟨u, hu, he, hp⟩

/-! ### Claim theorems -/

/-- C7: `handleLogout` always establishes the logged-out state: a null
session, no stored entry, dashboard deactivated, auth screen shown, and
both login fields cleared — whatever the state before the call. -/
theorem C7_handleLogout_resets (s : AppState) :
    (handleLogout s).currentUser = .jnull ∧
    (handleLogout s).storage = none ∧
    "active" ∉ (handleLogout s).dom.dashboardClasses ∧
    (handleLogout s).dom.authScreenDisplay = "flex" ∧
    (handleLogout s).dom.loginEmailValue = "" ∧
    (handleLogout s).dom.loginPasswordValue = "" := by
  refine ⟨rfl, rfl, ?_, rfl, rfl, rfl⟩
  simp [handleLogout, mem_removeClass]

/-- C3: on a login attempt with no matching user record, `handleLogin`
only writes the static invalid-credentials markup into the login error
div; `currentUser`, the `users` list, the stored `'currentUser'` entry —
indeed every other part of the state — are unchanged. -/
theorem C3_failed_login_only_error (s : AppState)
    (hno : ¬ ∃ u ∈ s.users,
      u.email = s.dom.loginEmailValue ∧ u.password = s.dom.loginPasswordValue) :
    handleLogin s =
      some { s with dom := { s.dom with loginErrorHtml := invalidLoginMsg } } := by
  simp only [handleLogin, find_login_none s hno]

/-- The storage entry mirrors the in-memory session: absent when logged
out, the JSON serialisation of the session record when logged in. -/
def mirrors (s : AppState) : Prop :=
  (s.currentUser = .jnull ∧ s.storage = none) ∨
  (∃ u : User, s.currentUser = u.toJVal ∧ s.storage = some (stringifyUser u))

/-- C4: each completed `handleLogin`, `handleRegister` and `handleLogout`
keeps the local-storage `'currentUser'` entry in step with the in-memory
session: the stored entry is the JSON serialisation of the session record
when one is set and absent when the session is null. -/
theorem C4_storage_mirrors_session (s : AppState) (hmir : mirrors s) :
    (∀ s', handleLogin s = some s' → mirrors s') ∧
    (∀ s', handleRegister s = some s' → mirrors s') ∧
    mirrors (handleLogout s) := by
  refine ⟨?_, ?_, Or.inl ⟨rfl, rfl⟩⟩
  · intro s' h
    simp only [handleLogin] at h
    split at h
    · rename_i u hf
      obtain ⟨-, hcu, hst⟩ := showDashboard_preserves _ _ h
      exact Or.inr ⟨u, hcu, hst⟩
    · injection h with h
      subst h
      exact hmir
  · intro s' h
    simp only [handleRegister] at h
    split at h
    · injection h with h
      subst h
      exact hmir
    · split at h
      · injection h with h
        subst h
        exact hmir
      · obtain ⟨-, hcu, hst⟩ := showDashboard_preserves _ _ h
        exact Or.inr ⟨regNewUser s, hcu, hst⟩

/-- C1: `handleLogin` succeeds — sets `currentUser` to a matching record,
mirrors it into storage, and shows the dashboard — if and only if some
record in the users list carries exactly the submitted email and exactly
the submitted password; otherwise it only writes the static
invalid-credentials markup. -/
theorem C1_login_iff_credential_match (s : AppState) (i : Nat)
    (hdom : firstIdx (fun e => e.id == "dashboard-section") s.dom.elements = some i) :
    ((∃ u ∈ s.users,
        u.email = s.dom.loginEmailValue ∧ u.password = s.dom.loginPasswordValue) →
      ∃ u s', u ∈ s.users ∧
        u.email = s.dom.loginEmailValue ∧ u.password = s.dom.loginPasswordValue ∧
        handleLogin s = some s' ∧
        s'.currentUser = u.toJVal ∧
        s'.storage = some (stringifyUser u) ∧
        s'.dom.authScreenDisplay = "none" ∧
        "active" ∈ s'.dom.dashboardClasses ∧
        (∃ e, s'.dom.elements[i]? = some e ∧
          e.id = "dashboard-section" ∧ "active" ∈ e.classes)) ∧
    ((¬ ∃ u ∈ s.users,
        u.email = s.dom.loginEmailValue ∧ u.password = s.dom.loginPasswordValue) →
      handleLogin s =
        some { s with dom := { s.dom with loginErrorHtml := invalidLoginMsg } }) := by
  constructor
  · intro hex
    obtain ⟨u, hf, hmem, he, hp⟩ := find_login_some s hex
    obtain ⟨s', hlog, hcu, hst, -, hauth, hdash, -, -, hpt⟩ :=
      handleLogin_success s u i hf hdom
    obtain ⟨e0, he0, hbeq⟩ := firstIdx_some _ _ _ hdom
    refine ⟨u, s', hmem, he, hp, hlog, hcu, hst, hauth, hdash,
      postElem i none i e0, ?_, ?_, ?_⟩
    · rw [hpt i, he0]
      rfl
    · rw [postElem_id]
      simpa using hbeq
    · exact (postElem_mem_active i none i e0).mpr (Or.inl rfl)
  · intro hno
    simp only [handleLogin, find_login_none s hno]

/-- C9: `handleRegister` rejects — writing only the matching error markup
and leaving the rest of the state untouched — exactly when the submitted
password has fewer than 6 characters (UTF-16 code units, as JavaScript's
`password.length` counts; checked first) or the submitted email equals an
existing user's; otherwise the users list grows by the new record. -/
theorem C9_register_rejection (s : AppState) :
    (jsLength s.dom.registerPasswordValue < 6 →
      handleRegister s =
        some { s with dom := { s.dom with registerErrorHtml := pwTooShortMsg } }) ∧
    (¬ jsLength s.dom.registerPasswordValue < 6 →
      (∃ u ∈ s.users, u.email = s.dom.registerEmailValue) →
      handleRegister s =
        some { s with dom := { s.dom with registerErrorHtml := emailRegisteredMsg } }) ∧
    (¬ jsLength s.dom.registerPasswordValue < 6 →
      (¬ ∃ u ∈ s.users, u.email = s.dom.registerEmailValue) →
      ∀ s', handleRegister s = some s' → s'.users = s.users ++ [regNewUser s]) := by
  refine ⟨?_, ?_, ?_⟩
  · intro h6
    simp only [handleRegister, if_pos h6]
  · intro h6 hex
    have hf : (s.users.find? (fun u => u.email == s.dom.registerEmailValue)).isSome := by
      refine List.find?_isSome.mpr ?_
      obtain ⟨u, hu, he⟩ := hex
      exact ⟨u, hu, by simp [he]⟩
    obtain ⟨u, hu⟩ := Option.isSome_iff_exists.mp hf
    simp only [handleRegister, if_neg h6, hu]
  · intro h6 hno s' h
    have hf : s.users.find? (fun u => u.email == s.dom.registerEmailValue) = none := by
      refine List.find?_eq_none.mpr ?_
      intro u hu
      simp only [beq_iff_eq]
      exact fun he => hno ⟨u, hu, he⟩
    simp only [handleRegister, if_neg h6, hf] at h
    exact (showDashboard_preserves _ _ h).1

/-- C10: a successful registration appends exactly one record whose id is
the prior list length plus one, whose name, email, password and user type
are the submitted values, whose role is derived from the user type
(`firm` ↦ Law Firm, `solo` ↦ Solo Practitioner, anything else ↦ In-House
Counsel), and which becomes the current session. -/
theorem C10_register_new_user (s : AppState) (i : Nat)
    (hdom : firstIdx (fun e => e.id == "dashboard-section") s.dom.elements = some i)
    (h6 : ¬ jsLength s.dom.registerPasswordValue < 6)
    (hno : ¬ ∃ u ∈ s.users, u.email = s.dom.registerEmailValue) :
    ∃ s', handleRegister s = some s' ∧
      s'.users = s.users ++ [regNewUser s] ∧
      (regNewUser s).id = s.users.length + 1 ∧
      (regNewUser s).name = s.dom.registerNameValue ∧
      (regNewUser s).email = s.dom.registerEmailValue ∧
      (regNewUser s).password = s.dom.registerPasswordValue ∧
      (regNewUser s).userType = s.dom.registerUserTypeValue ∧
      (s.dom.registerUserTypeValue = "firm" → (regNewUser s).role = "Law Firm") ∧
      (s.dom.registerUserTypeValue = "solo" → (regNewUser s).role = "Solo Practitioner") ∧
      (s.dom.registerUserTypeValue ≠ "firm" → s.dom.registerUserTypeValue ≠ "solo" →
        (regNewUser s).role = "In-House Counsel") ∧
      s'.currentUser = (regNewUser s).toJVal := by
  have hf : s.users.find? (fun u => u.email == s.dom.registerEmailValue) = none := by
    refine List.find?_eq_none.mpr ?_
    intro u hu
    simp only [beq_iff_eq]
    exact fun he => hno ⟨u, hu, he⟩
  obtain ⟨s', hreg, husers, hcu, -, -, -, -, -, -⟩ := handleRegister_success s i h6 hf hdom
  refine ⟨s', hreg, husers, rfl, rfl, rfl, rfl, rfl, ?_, ?_, ?_, hcu⟩
  · intro h
    simp [regNewUser, h]
  · intro h
    simp [regNewUser, h]
  · intro h1 h2
    simp [regNewUser, h1, h2]

/-- C8: after `showSection(sectionId, linkEl)` the only content section
carrying the `active` class is the element with id `sectionId +
'-section'`, and the only sidebar link carrying it is the passed link
(no link at all when none is passed); every other element has it
removed.  The hypotheses record what the page's markup guarantees: the
target element exists, is a content section and not a sidebar link, and a
passed link is a sidebar link and not a content section. -/
theorem C8_showSection_unique_active (dom : Dom) (sectionId : String)
    (linkEl : Option Nat) (i : Nat)
    (hfind : firstIdx (fun e => e.id == sectionId ++ "-section") dom.elements = some i)
    (htgt : ∀ e, dom.elements[i]? = some e →
      "content-section" ∈ e.classes ∧ "sidebar-link" ∉ e.classes)
    (hlnk : ∀ j, linkEl = some j → ∀ e, dom.elements[j]? = some e →
      "sidebar-link" ∈ e.classes ∧ "content-section" ∉ e.classes) :
    ∃ dom', showSection sectionId linkEl dom = some dom' ∧
      (∃ e, dom'.elements[i]? = some e ∧ e.id = sectionId ++ "-section") ∧
      (∀ k : Nat, ∀ e', dom'.elements[k]? = some e' →
        (("content-section" ∈ e'.classes ∧ "active" ∈ e'.classes) ↔ k = i)) ∧
      (∀ k : Nat, ∀ e', dom'.elements[k]? = some e' →
        (("sidebar-link" ∈ e'.classes ∧ "active" ∈ e'.classes) ↔ linkEl = some k)) := by
  obtain ⟨els', heq, hlen, hpt⟩ := showSection_spec sectionId linkEl dom i hfind
  obtain ⟨e0, he0, hbeq⟩ := firstIdx_some _ _ _ hfind
  obtain ⟨he0CS, he0SL⟩ := htgt e0 he0
  refine ⟨_, heq, ⟨postElem i linkEl i e0, ?_, ?_⟩, ?_, ?_⟩
  · rw [hpt i, he0]
    rfl
  · rw [postElem_id]
    simpa using hbeq
  · intro k e' he'
    rw [hpt k] at he'
    cases h : dom.elements[k]? with
    | none =>
      rw [h] at he'
      exact Option.noConfusion he'
    | some e =>
      rw [h] at he'
      injection he' with he'
      subst he'
      have hcs : "content-section" ∈ (postElem i linkEl k e).classes ↔
          "content-section" ∈ e.classes :=
        postElem_mem_other i linkEl k e _ (by decide)
      constructor
      · rintro ⟨hCS, hact⟩
        rw [postElem_mem_active] at hact
        rw [hcs] at hCS
        rcases hact with hki | hlk | ⟨-, hnCS, -⟩
        · exact hki
        · obtain ⟨j, rfl⟩ : ∃ j, linkEl = some j := ⟨k, hlk⟩
          have := hlnk k hlk e h
          exact absurd hCS this.2
        · exact absurd hCS hnCS
      · rintro rfl
        have hee : e = e0 := by
          rw [h] at he0
          injection he0
        subst hee
        exact ⟨hcs.mpr he0CS, (postElem_mem_active _ linkEl _ e).mpr (Or.inl rfl)⟩
  · intro k e' he'
    rw [hpt k] at he'
    cases h : dom.elements[k]? with
    | none =>
      rw [h] at he'
      exact Option.noConfusion he'
    | some e =>
      rw [h] at he'
      injection he' with he'
      subst he'
      have hsl : "sidebar-link" ∈ (postElem i linkEl k e).classes ↔
          "sidebar-link" ∈ e.classes :=
        postElem_mem_other i linkEl k e _ (by decide)
      constructor
      · rintro ⟨hSL, hact⟩
        rw [postElem_mem_active] at hact
        rw [hsl] at hSL
        rcases hact with rfl | hlk | ⟨-, -, hnSL⟩
        · have hee : e = e0 := by
            rw [h] at he0
            injection he0
          subst hee
          exact absurd hSL he0SL
        · exact hlk
        · exact absurd hSL hnSL
      · intro hlk
        have := hlnk k hlk e h
        exact ⟨hsl.mpr this.1, (postElem_mem_active i linkEl k e).mpr (Or.inr (Or.inl hlk))⟩

lemma ids_after_postElem (l : List Element) (i : Nat) (le : Option Nat) (els' : List Element)
    (hpt : ∀ k : Nat, els'[k]? = (l[k]?).map (postElem i le k)) :
    ∀ k : Nat, (els'[k]?).map Element.id = (l[k]?).map Element.id := by
  intro k
  rw [hpt k]
  cases l[k]? <;> simp [postElem_id]

lemma showDashboard_spec2 (s : AppState) (nm : String) (i : Nat)
    (hname : getProp s.currentUser "name" = some (some (.jstr nm)))
    (hfind : firstIdx (fun e => e.id == "dashboard-section") s.dom.elements = some i) :
    ∃ s2, showDashboard s = some s2 ∧
      s2.users = s.users ∧ s2.currentUser = s.currentUser ∧ s2.storage = s.storage ∧
      s2.dom.authScreenDisplay = "none" ∧
      "active" ∈ s2.dom.dashboardClasses ∧
      (∀ k : Nat, s2.dom.elements[k]? = (s.dom.elements[k]?).map (postElem i none k)) := by
  obtain ⟨roleV, els', heq, hlen, hpt⟩ := showDashboard_spec s nm i hname hfind
  exact ⟨_, heq, rfl, rfl, rfl, rfl, (mem_addClass _ _ _).mpr (Or.inr rfl), hpt⟩

lemma showSection_then_state (d0 : Dom) (linkEl : Option Nat) (i : Nat)
    (hfind : firstIdx (fun e => e.id == "dashboard-section") d0.elements = some i) :
    ∃ d, showSection "dashboard" linkEl d0 = some d ∧
      d.authScreenDisplay = d0.authScreenDisplay ∧
      d.dashboardClasses = d0.dashboardClasses ∧
      (∃ e, d.elements[i]? = some e ∧ e.id = "dashboard-section" ∧ "active" ∈ e.classes) := by
  obtain ⟨els', heq, hlen, hpt⟩ := showSection_spec "dashboard" linkEl d0 i (by simpa using hfind)
  obtain ⟨e0, he0, hbeq⟩ := firstIdx_some _ _ _ hfind
  refine ⟨_, heq, rfl, rfl, postElem i linkEl i e0, ?_, ?_, ?_⟩
  · rw [hpt i, he0]
    rfl
  · rw [postElem_id]
    simpa using hbeq
  · exact (postElem_mem_active _ _ _ _).mpr (Or.inl rfl)

lemma loadHandler_restores (s : AppState) (sv : String) (v : JVal) (nm : String) (i : Nat)
    (hst : s.storage = some sv) (hne : sv ≠ "")
    (hp : jParse sv = some v)
    (hname : getProp v "name" = some (some (.jstr nm)))
    (hdom : firstIdx (fun e => e.id == "dashboard-section") s.dom.elements = some i) :
    ∃ s', loadHandler s = some s' ∧
      s'.currentUser = v ∧
      s'.users = s.users ∧
      s'.storage = some sv ∧
      s'.dom.authScreenDisplay = "none" ∧
      "active" ∈ s'.dom.dashboardClasses ∧
      (∃ e, s'.dom.elements[i]? = some e ∧
        e.id = "dashboard-section" ∧ "active" ∈ e.classes) := by
  obtain ⟨s2, heq, hu, hc, hst2, hauth, hdash, hpt⟩ := showDashboard_spec2
    { users := s.users, currentUser := v, storage := some sv, dom := s.dom } nm i hname hdom
  have hfind2 : firstIdx (fun e => e.id == "dashboard-section") s2.dom.elements = some i := by
    rw [firstIdx_ext_id "dashboard-section" s2.dom.elements s.dom.elements
      (ids_after_postElem s.dom.elements i none s2.dom.elements hpt)]
    exact hdom
  simp only [loadHandler, hst, if_neg hne, hp, heq]
  cases hq : firstIdx (fun e => e.classes.contains "sidebar-link" && e.href == some "#")
      s2.dom.elements with
  | some j =>
    obtain ⟨d, heq2, hauth2, hdash2, hel⟩ := showSection_then_state s2.dom (some j) i hfind2
    simp only [hq, heq2]
    exact ⟨_, rfl, hc, hu, hst2, by simpa [hauth2] using hauth, by
      simpa [hdash2] using hdash, hel⟩
  | none =>
    obtain ⟨d, heq2, hauth2, hdash2, hel⟩ := showSection_then_state s2.dom none i hfind2
    simp only [hq, heq2]
    exact ⟨_, rfl, hc, hu, hst2, by simpa [hauth2] using hauth, by
      simpa [hdash2] using hdash, hel⟩

/-- C5: on page load, a saved non-empty `'currentUser'` value that parses
to a record with a string `name` is restored: `currentUser` becomes the
parsed record and the dashboard is shown with the default
`dashboard-section` active; with no saved value the handler changes
nothing and the login screen remains as it was. -/
theorem C5_load_restores_session (s : AppState) :
    (∀ sv v nm i, s.storage = some sv → sv ≠ "" →
      jParse sv = some v → getProp v "name" = some (some (.jstr nm)) →
      firstIdx (fun e => e.id == "dashboard-section") s.dom.elements = some i →
      ∃ s', loadHandler s = some s' ∧ s'.currentUser = v ∧
        s'.dom.authScreenDisplay = "none" ∧ "active" ∈ s'.dom.dashboardClasses ∧
        (∃ e, s'.dom.elements[i]? = some e ∧
          e.id = "dashboard-section" ∧ "active" ∈ e.classes)) ∧
    (s.storage = none → loadHandler s = some s) := by
  constructor
  · intro sv v nm i hst hne hp hname hdom
    obtain ⟨s', h1, h2, -, -, h3, h4, h5⟩ :=
      loadHandler_restores s sv v nm i hst hne hp hname hdom
    exact ⟨s', h1, h2, h3, h4, h5⟩
  · intro hst
    simp only [loadHandler, hst]

lemma showDashboard_none (s : AppState)
    (hbad : ∀ nm : String, getProp s.currentUser "name" ≠ some (some (.jstr nm))) :
    showDashboard s = none := by
  cases hn : getProp s.currentUser "name" with
  | none => simp [showDashboard, hn]
  | some nameV =>
    have hcau : charAtUpper nameV = none := by
      cases nameV with
      | none => rfl
      | some w =>
        cases w with
        | jstr str => exact absurd hn (hbad str)
        | jnull => rfl
        | jbool b => rfl
        | jnum n => rfl
        | jarr xs => rfl
        | jobj fs => rfl
    cases hr : getProp s.currentUser "role" with
    | none => simp [showDashboard, hn, hr]
    | some roleV => simp [showDashboard, hn, hr, hcau]

/-- C6 amended: with a non-empty stored `'currentUser'` value, the load
handler raises (returns `none`) precisely when the value fails to parse
as JSON or parses to a value whose `name` property is not a string; in
particular every well-formed stored user record is restored without an
exception, but so is any other JSON object with a string `name`. -/
theorem C6_amended_load_raises_iff (s : AppState) (sv : String) (i : Nat)
    (hst : s.storage = some sv) (hne : sv ≠ "")
    (hdom : firstIdx (fun e => e.id == "dashboard-section") s.dom.elements = some i) :
    loadHandler s = none ↔
      ¬ ∃ v nm, jParse sv = some v ∧ getProp v "name" = some (some (.jstr nm)) := by
  constructor
  · intro hnone hgood
    obtain ⟨v, nm, hp, hname⟩ := hgood
    obtain ⟨s', h1, -⟩ := loadHandler_restores s sv v nm i hst hne hp hname hdom
    rw [h1] at hnone
    exact Option.noConfusion hnone
  · intro hbad
    cases hp : jParse sv with
    | none => simp [loadHandler, hst, hne, hp]
    | some v =>
      have hsd : showDashboard
          { users := s.users, currentUser := v, storage := some sv, dom := s.dom } = none :=
        showDashboard_none _ (fun nm h => hbad ⟨v, nm, hp, h⟩)
      simp [loadHandler, hst, hne, hp, hsd]

/-! ### Concrete page states for counterexamples and witnesses -/

/-- Modelled from the spec: a concrete element list of the kind the
page's markup provides — content sections (`dashboard-section` first, as
`showSection('dashboard')` requires) and sidebar links, the default one
with `href="#"`. -/
def exElems : List Element :=
  [ { id := "dashboard-section", classes := ["content-section"], href := none },
    { id := "cases-section", classes := ["content-section", "active"], href := none },
    { id := "link-dashboard", classes := ["sidebar-link", "active"], href := some "#" },
    { id := "link-cases", classes := ["sidebar-link"], href := some "#cases" } ]

/-- Modelled from the spec: a concrete page DOM in its initial
logged-out shape. -/
def exDom : Dom :=
  { elements := exElems,
    loginEmailValue := "", loginPasswordValue := "", loginErrorHtml := "",
    registerNameValue := "", registerEmailValue := "", registerPasswordValue := "",
    registerUserTypeValue := "", registerErrorHtml := "",
    dashboardClasses := [], authScreenDisplay := "flex",
    loginFormDisplay := "block", registerFormDisplay := "none",
    displayUserNameText := "", displayUserRoleText := "", userInitialText := "" }

/-- A concrete state about to submit a valid registration. -/
def c2State : AppState :=
  { users := users, currentUser := .jnull, storage := none,
    dom := { exDom with
             registerNameValue := "New User",
             registerEmailValue := "new@example.com",
             registerPasswordValue := "abcdef",
             registerUserTypeValue := "firm" } }

/-- C2 counterexample: a successful `handleRegister` call grows the users
list from the three demo records to four, so the list is not fixed for
the lifetime of the page. -/
theorem C2_counterexample :
    (handleRegister c2State).map (fun s => s.users.length) = some 4 := by decide

/-- C2 amended: the users list starts as exactly the three demo records,
and `handleLogin`, `handleLogout` and the load handler never change it;
only a successful `handleRegister` modifies it, by appending the single
new record (never removing or altering existing ones). -/
theorem C2_amended_users_lifecycle :
    users.length = 3 ∧
    (∀ st d, (initState st d).users = users) ∧
    (∀ s s', handleLogin s = some s' → s'.users = s.users) ∧
    (∀ s, (handleLogout s).users = s.users) ∧
    (∀ s s', loadHandler s = some s' → s'.users = s.users) ∧
    (∀ s s', handleRegister s = some s' →
      s'.users = s.users ∨ s'.users = s.users ++ [regNewUser s]) :=
  ⟨rfl, fun _ _ => rfl, handleLogin_users, fun _ => rfl,
    loadHandler_users, handleRegister_users⟩

/-- A concrete state whose stored value is valid JSON but not a user
record: an object with only a string `name`. -/
def c6State : AppState :=
  { users := users, currentUser := .jnull,
    storage := some "\x7b\"name\":\"A\"\x7d", dom := exDom }

/-- C6 counterexample: the stored value `{"name":"A"}` is a non-empty
string that is not valid JSON encoding a user record, yet the load
handler completes without raising. -/
theorem C6_counterexample : (loadHandler c6State).isSome = true := by decide

/-! ### Witnesses: the theorems instantiated at concrete page states -/

/-- A concrete state about to submit the demo credentials. -/
def loginOkState : AppState :=
  { users := users, currentUser := .jnull, storage := none,
    dom := { exDom with
             loginEmailValue := "demo@lawfirm.com",
             loginPasswordValue := "Demo@123" } }

/-- A concrete state about to submit a wrong password. -/
def loginBadState : AppState :=
  { users := users, currentUser := .jnull, storage := none,
    dom := { exDom with
             loginEmailValue := "demo@lawfirm.com",
             loginPasswordValue := "wrong" } }

theorem C1_witness :
    firstIdx (fun e => e.id == "dashboard-section") loginOkState.dom.elements = some 0 ∧
    (∃ u ∈ loginOkState.users, u.email = loginOkState.dom.loginEmailValue ∧
      u.password = loginOkState.dom.loginPasswordValue) ∧
    (handleLogin loginOkState).isSome = true := by
  refine ⟨by decide, by decide, ?_⟩
  obtain ⟨u, s', -, -, -, hlog, -, -, -, -, -⟩ :=
    (C1_login_iff_credential_match loginOkState 0 (by decide)).1 (by decide)
  rw [hlog]
  rfl

theorem C3_witness :
    (¬ ∃ u ∈ loginBadState.users, u.email = loginBadState.dom.loginEmailValue ∧
      u.password = loginBadState.dom.loginPasswordValue) ∧
    handleLogin loginBadState =
      some { loginBadState with dom :=
        { loginBadState.dom with loginErrorHtml := invalidLoginMsg } } :=
  ⟨by decide, C3_failed_login_only_error loginBadState (by decide)⟩

theorem C4_witness :
    mirrors c2State ∧ mirrors (handleLogout c2State) :=
  ⟨Or.inl ⟨rfl, rfl⟩, (C4_storage_mirrors_session c2State (Or.inl ⟨rfl, rfl⟩)).2.2⟩

theorem C2_amended_witness :
    loadHandler (initState none exDom) = some (initState none exDom) ∧
    (initState none exDom).users = (initState none exDom).users :=
  ⟨rfl, C2_amended_users_lifecycle.2.2.2.2.1
    (initState none exDom) (initState none exDom) rfl⟩

/-- The stored record used by the session-restore witness. -/
def c5User : User :=
  { id := 1, name := "Demo User", email := "demo@lawfirm.com",
    password := "Demo@123", userType := "firm", role := "Law Firm" }

/-- A concrete state that starts with a well-formed stored session. -/
def c5State : AppState :=
  { users := users, currentUser := .jnull,
    storage := some (stringifyUser c5User), dom := exDom }

theorem C5_witness :
    c5State.storage = some (stringifyUser c5User) ∧
    stringifyUser c5User ≠ "" ∧
    jParse (stringifyUser c5User) = some c5User.toJVal ∧
    getProp c5User.toJVal "name" = some (some (.jstr "Demo User")) ∧
    firstIdx (fun e => e.id == "dashboard-section") c5State.dom.elements = some 0 ∧
    (loadHandler c5State).isSome = true := by
  refine ⟨rfl, by decide, rfl, rfl, by decide, ?_⟩
  obtain ⟨s', h1, -⟩ := (C5_load_restores_session c5State).1
    (stringifyUser c5User) c5User.toJVal "Demo User" 0 rfl (by decide) rfl rfl (by decide)
  rw [h1]
  rfl

/-- A concrete state whose stored value is not valid JSON at all. -/
def c6BadState : AppState :=
  { users := users, currentUser := .jnull, storage := some "oops", dom := exDom }

theorem C6_amended_witness :
    c6BadState.storage = some "oops" ∧ ("oops" : String) ≠ "" ∧
    firstIdx (fun e => e.id == "dashboard-section") c6BadState.dom.elements = some 0 ∧
    loadHandler c6BadState = none := by
  refine ⟨rfl, by decide, by decide, ?_⟩
  rw [C6_amended_load_raises_iff c6BadState "oops" 0 rfl (by decide) (by decide)]
  rintro ⟨v, nm, hp, -⟩
  rw [show jParse "oops" = none from rfl] at hp
  exact Option.noConfusion hp

theorem C8_witness :
    firstIdx (fun e => e.id == "cases" ++ "-section") exDom.elements = some 1 ∧
    (showSection "cases" (some 3) exDom).isSome = true := by
  have htgt : ∀ e, exDom.elements[1]? = some e →
      "content-section" ∈ e.classes ∧ "sidebar-link" ∉ e.classes := by
    intro e he
    rw [show exDom.elements[1]? = some
      { id := "cases-section", classes := ["content-section", "active"], href := none }
      from rfl] at he
    injection he with he
    subst he
    exact ⟨by decide, by decide⟩
  have hlnk : ∀ j, (some 3 : Option Nat) = some j → ∀ e, exDom.elements[j]? = some e →
      "sidebar-link" ∈ e.classes ∧ "content-section" ∉ e.classes := by
    intro j hj e he
    injection hj with hj
    subst hj
    rw [show exDom.elements[3]? = some
      { id := "link-cases", classes := ["sidebar-link"], href := some "#cases" }
      from rfl] at he
    injection he with he
    subst he
    exact ⟨by decide, by decide⟩
  refine ⟨by decide, ?_⟩
  obtain ⟨dom', hshow, -, -, -⟩ :=
    C8_showSection_unique_active exDom "cases" (some 3) 1 (by decide) htgt hlnk
  rw [hshow]
  rfl

/-- A concrete state about to submit a five-character password. -/
def c9State : AppState :=
  { users := users, currentUser := .jnull, storage := none,
    dom := { exDom with
             registerPasswordValue := "abc",
             registerEmailValue := "x@y.z" } }

theorem C9_witness :
    jsLength c9State.dom.registerPasswordValue < 6 ∧
    handleRegister c9State =
      some { c9State with dom :=
        { c9State.dom with registerErrorHtml := pwTooShortMsg } } :=
  ⟨by decide, (C9_register_rejection c9State).1 (by decide)⟩

theorem C10_witness :
    firstIdx (fun e => e.id == "dashboard-section") c2State.dom.elements = some 0 ∧
    (¬ jsLength c2State.dom.registerPasswordValue < 6) ∧
    (¬ ∃ u ∈ c2State.users, u.email = c2State.dom.registerEmailValue) ∧
    (handleRegister c2State).isSome = true := by
  refine ⟨by decide, by decide, by decide, ?_⟩
  obtain ⟨s', hreg, -⟩ := C10_register_new_user c2State 0 (by decide) (by decide) (by decide)
  rw [hreg]
  rfl
